import Mathlib

/-!
Verification development for the `sawari` car-data scraper, centred on the
assembly engine of `src/sawari/spiders/car_details_spider.py` (spider
`CarDetailsSpider`).  The spider keeps one mutable `car_data` dict per car
(seed fields under `"base_info"`, seven pre-initialised tab slots, and a
`_pending_tabs` set), dispatches one request per discovered tab, and each
completion callback (`process_tab` on success, `handle_error` on failure)
writes its outcome, removes its key from `_pending_tabs` and emits the merged
record via `finalize_car_data` once the pending set is empty.

The embedding below translates that code directly: Python dicts become
association lists over a JSON-like `Value` type, the `_pending_tabs` set
becomes a `Finset String`, and each Scrapy callback becomes a pure state
transformer that also reports the items it yields, the log lines it writes,
and whether it raised an uncaught exception.
-/

/-- JSON-like values stored in the scraped dictionaries. -/
inductive Value where
  | vNull : Value
  | vStr : String → Value
  | vObj : List (String × Value) → Value

/-- A Python dict, modelled as an association list (keys kept unique by the
operations below, mirroring real dicts). -/
abbrev Dict := List (String × Value)

/-- `d[k]` lookup: first binding of the key, if any. -/
def dict_get : Dict → String → Option Value
  | [], _ => none
  | (k, v) :: rest, key => if key = k then some v else dict_get rest key

/-- `d[k] = v`: update the binding in place if the key is present, otherwise
append it (Python dict assignment). -/
def dict_set : Dict → String → Value → Dict
  | [], key, value => [(key, value)]
  | (k, v) :: rest, key, value =>
      if key = k then (k, value) :: rest else (k, v) :: dict_set rest key value

/-- `d.pop(k)`: drop the binding of the key. -/
def dict_pop (d : Dict) (key : String) : Dict :=
  d.filter (fun kv => kv.1 != key)

/-- Python `{**a, **b}`: start from `a` and write every binding of `b` over
it, so on a key collision the value from `b` wins. -/
def dict_merge (a b : Dict) : Dict :=
  b.foldl (fun acc kv => dict_set acc kv.1 kv.2) a

/-- The keys of a dict. -/
def dict_keys (d : Dict) : List String := d.map Prod.fst

/-- Python `==` on dicts: same value at every key, irrespective of insertion
order. -/
def dict_equiv (a b : Dict) : Prop := ∀ k, dict_get a k = dict_get b k

/-- State of one `car_data` object.  `entries` holds every dict entry except
the `_pending_tabs` bookkeeping set, which is modelled apart as `pending`
(a Python `set` cannot be a JSON value). -/
structure CarData where
  entries : Dict
  pending : Finset String

/-- The `car_data` dict created per car in `start_requests`
(`car_details_spider.py` lines 22-33): the seed car dict under `"base_info"`,
the seven tab slots pre-initialised to `None`, and an empty pending set. -/
def initial_car_data (car : Dict) : CarData :=
  { entries := [("base_info", Value.vObj car), ("price", Value.vNull),
                ("specifications", Value.vNull), ("variants", Value.vNull),
                ("colours", Value.vNull), ("mileage", Value.vNull),
                ("reviews", Value.vNull), ("gallery", Value.vNull)],
    pending := ∅ }

/-- References to the tab parser callbacks of the spider. -/
inductive ParserRef where
  | specifications | price | variants | colours | reviews | gallery | mileage
  | unknown
deriving DecidableEq

/-- The `tab_mapping` dict of `parse_first_page` (lines 55-66): tab id ↦
(data key, parser callback or `None`). -/
def tab_mapping : List (String × (String × Option ParserRef)) :=
  [("specs", ("specifications", some ParserRef.specifications)),
   ("price", ("price", some ParserRef.price)),
   ("variants", ("variants", some ParserRef.variants)),
   ("colours", ("colours", some ParserRef.colours)),
   ("reviews", ("reviews", some ParserRef.reviews)),
   ("gallery", ("gallery", some ParserRef.gallery)),
   ("mileage", ("mileage", some ParserRef.mileage)),
   ("range", ("mileage", some ParserRef.mileage)),
   ("model", ("base_info", none)),
   ("compare", ("compare", none))]

/-- `tab_mapping.get(tab_id, (tab_id, self.parse_unknown))` (line 77). -/
def lookup_tab (tab_id : String) : String × Option ParserRef :=
  match tab_mapping.lookup tab_id with
  | some r => r
  | none => (tab_id, some ParserRef.unknown)

/-- One navigable tab link found on the first page: its `id` attribute and
its (already absolutised) target URL. -/
structure TabLink where
  id : String
  href : String

/-- One request yielded by `parse_first_page`: target URL, the `data_key`
stored in its meta, and the callback it will run. -/
structure Request where
  url : String
  data_key : String
  parser : ParserRef

/-- `parse_first_page` (lines 50-90): walk the tab links in order; skip
`model` and `compare`; map each remaining id through `tab_mapping` (falling
back to `(tab_id, parse_unknown)`); when the parser is not `None`, add the
data key to `_pending_tabs` and yield a request for the tab. -/
def parse_first_page (cd : CarData) : List TabLink → CarData × List Request
  | [] => (cd, [])
  | t :: ts =>
      if t.id = "model" ∨ t.id = "compare" then parse_first_page cd ts
      else
        match lookup_tab t.id with
        | (data_key, some p) =>
            let cd1 : CarData := { cd with pending := insert data_key cd.pending }
            let rec_result := parse_first_page cd1 ts
            (rec_result.1, ⟨t.href, data_key, p⟩ :: rec_result.2)
        | (_, none) => parse_first_page cd ts

/-- The state reached once discovery for one car has run over its tab links. -/
def discovered_state (car : Dict) (tabs : List TabLink) : CarData :=
  (parse_first_page (initial_car_data car) tabs).1

/-- The requests dispatched for one car by discovery. -/
def discovered_requests (car : Dict) (tabs : List TabLink) : List Request :=
  (parse_first_page (initial_car_data car) tabs).2

/-- `finalize_car_data` (lines 92-104).  When `_pending_tabs` is empty it
copies the dict, pops `_pending_tabs` (already apart in this model), splats
`final_data["base_info"]` under the remaining entries — so entry values
overwrite base values on key collision — and pops `"base_info"`.  Reading
`base_info` raises `KeyError` if absent and the `{**x}` splat raises
`TypeError` if it is not a dict; both are modelled as `Except.error`.
Returns `none` when tabs are still pending (Python `return None`). -/
def finalize_car_data (cd : CarData) : Option (Except String Dict) :=
  if cd.pending = ∅ then
    let final_data := cd.entries
    match dict_get final_data "base_info" with
    | some (Value.vObj base) =>
        some (Except.ok (dict_pop (dict_merge base final_data) "base_info"))
    | some _ => some (Except.error "TypeError")
    | none => some (Except.error "KeyError")
  else none

/-- What one Scrapy callback invocation produced: the shared `car_data` state
as it left it, the items it yielded, the log lines it wrote, and whether it
raised an uncaught exception (which Scrapy catches and logs; the engine
keeps running and the mutations made before the raise stay in place). -/
structure CallbackOut where
  car_data : CarData
  items : List Dict
  logs : List String
  raised : Bool

/-- Common body of `process_tab` (lines 106-120) and the tail of
`handle_error` (lines 156-164): store the outcome under `data_key`, then
`_pending_tabs.remove(data_key)` — which raises `KeyError` when the key is
not pending, after the store already happened — then emit the finalized
record if it is truthy. -/
def settle_tab (cd : CarData) (data_key : String) (value : Value) : CallbackOut :=
  let entries1 := dict_set cd.entries data_key value
  if data_key ∈ cd.pending then
    let cd1 : CarData := ⟨entries1, cd.pending.erase data_key⟩
    match finalize_car_data cd1 with
    | some (Except.ok d) =>
        if d.isEmpty then ⟨cd1, [], [], false⟩ else ⟨cd1, [d], [], false⟩
    | some (Except.error _) => ⟨cd1, [], [], true⟩
    | none => ⟨cd1, [], [], false⟩
  else
    ⟨⟨entries1, cd.pending⟩, [], [], true⟩

/-- `process_tab` (lines 106-120), with the tab parser's output already
applied to the response. -/
def process_tab (cd : CarData) (data_key : String) (parsed : Value) : CallbackOut :=
  settle_tab cd data_key parsed

/-- The constant parser `lambda r: {"error": "Unknown tab type"}` that
`parse_unknown` feeds to `process_tab` (line 125). -/
def parse_unknown_value : Value :=
  Value.vObj [("error", Value.vStr "Unknown tab type")]

/-- `parse_unknown` (lines 122-125): log a warning, then run `process_tab`
with the constant unknown-tab payload. -/
def parse_unknown (cd : CarData) (data_key : String) (url : String) : CallbackOut :=
  let out := process_tab cd data_key parse_unknown_value
  { out with logs := s!"Unknown tab type encountered: {url}" :: out.logs }

/-- `handle_error` (lines 149-164): read `car_data` and `data_key` from the
failed request's meta.  The first request of a car (from `start_requests`)
carries no `"data_key"` in its meta, so that read raises `KeyError` before
anything is logged or mutated.  Otherwise log the failure, store the error
placeholder `{error, url}` and settle the tab. -/
def handle_error (cd : CarData) (meta_data_key : Option String)
    (errmsg url : String) : CallbackOut :=
  match meta_data_key with
  | none => ⟨cd, [], [], true⟩
  | some data_key =>
      let out := settle_tab cd data_key
        (Value.vObj [("error", Value.vStr errmsg), ("url", Value.vStr url)])
      { out with logs := s!"Request failed for {data_key}: {errmsg}" :: out.logs }

/-- Outcome of one sub-task: the tab parser succeeded with a value, or the
fetch failed with an error message for a URL. -/
inductive Outcome where
  | success : Value → Outcome
  | failure : String → String → Outcome

/-- A completion event routed back to the shared `car_data`: the `data_key`
from the request meta plus the outcome. -/
structure TabEvent where
  key : String
  out : Outcome

/-- The value the handling callback stores for an event: the parsed value on
success (`process_tab`), the `{error, url}` placeholder on failure
(`handle_error`). -/
def written_value : Outcome → Value
  | Outcome.success v => v
  | Outcome.failure m u => Value.vObj [("error", Value.vStr m), ("url", Value.vStr u)]

/-- Dispatch one completion event to the callback the request registered:
`callback=parser` on success, `errback=handle_error` on failure. -/
def handle_event (cd : CarData) (e : TabEvent) : CallbackOut :=
  match e.out with
  | Outcome.success v => process_tab cd e.key v
  | Outcome.failure m u => handle_error cd (some e.key) m u

/-- Run a sequence of completion events over the shared `car_data`,
collecting every item yielded along the way.  A callback that raised only
terminates that callback; the spider keeps consuming later events. -/
def run_events (cd : CarData) : List TabEvent → CarData × List Dict
  | [] => (cd, [])
  | e :: rest =>
      ((run_events (handle_event cd e).car_data rest).1,
       (handle_event cd e).items ++ (run_events (handle_event cd e).car_data rest).2)

/-! ### Dictionary lemmas -/

theorem dict_get_set (d : Dict) (k : String) (v : Value) (k' : String) :
    dict_get (dict_set d k v) k' = if k' = k then some v else dict_get d k' := by
  induction d with
  | nil => simp only [dict_set, dict_get]
  | cons kv rest ih =>
      obtain ⟨k0, v0⟩ := kv
      by_cases h : k = k0
      · subst h
        by_cases h' : k' = k <;> simp [dict_set, dict_get, h']
      · by_cases h' : k' = k0
        · subst h'
          have hne : k' ≠ k := fun hh => h hh.symm
          simp [dict_set, h, dict_get, hne]
        · simp [dict_set, h, dict_get, h', ih]

theorem dict_mem_keys_set (d : Dict) (k : String) (v : Value) (k' : String) :
    k' ∈ dict_keys (dict_set d k v) ↔ k' ∈ dict_keys d ∨ k' = k := by
  induction d with
  | nil => simp [dict_set, dict_keys]
  | cons kv rest ih =>
      obtain ⟨k0, v0⟩ := kv
      by_cases h : k = k0
      · subst h
        simp [dict_set, dict_keys]
        tauto
      · simp [dict_set, h, dict_keys] at ih ⊢
        tauto

theorem dict_keys_cons (k0 : String) (v0 : Value) (rest : Dict) :
    dict_keys ((k0, v0) :: rest) = k0 :: dict_keys rest := rfl

theorem dict_keys_set_nodup (d : Dict) (k : String) (v : Value)
    (h : (dict_keys d).Nodup) : (dict_keys (dict_set d k v)).Nodup := by
  induction d with
  | nil => simp [dict_set, dict_keys]
  | cons kv rest ih =>
      obtain ⟨k0, v0⟩ := kv
      rw [dict_keys_cons, List.nodup_cons] at h
      by_cases hk : k = k0
      · subst hk
        rw [show dict_set ((k, v0) :: rest) k v = (k, v) :: rest by simp [dict_set]]
        rw [dict_keys_cons, List.nodup_cons]
        exact h
      · rw [show dict_set ((k0, v0) :: rest) k v = (k0, v0) :: dict_set rest k v by
          simp [dict_set, hk]]
        rw [dict_keys_cons, List.nodup_cons]
        refine ⟨?_, ih h.2⟩
        intro hmem
        rcases (dict_mem_keys_set rest k v k0).1 hmem with h1 | h1
        · exact h.1 h1
        · exact hk h1.symm

theorem dict_get_pop (d : Dict) (k k' : String) :
    dict_get (dict_pop d k) k' = if k' = k then none else dict_get d k' := by
  induction d with
  | nil => simp [dict_pop, dict_get]
  | cons kv rest ih =>
      obtain ⟨k0, v0⟩ := kv
      by_cases h0 : k0 = k
      · subst h0
        have hcond : ((k0, v0).1 != k0) = false := by simp
        by_cases h' : k' = k0 <;>
          simp [dict_pop, List.filter_cons, hcond, dict_get, h', dict_pop] at ih ⊢ <;>
          simp [ih, h']
      · have hcond : ((k0, v0).1 != k) = true := by simpa using h0
        by_cases h' : k' = k0
        · subst h'
          have hne : k' ≠ k := fun hh => h0 hh
          simp [dict_pop, List.filter_cons, hcond, dict_get, hne]
        · simp [dict_pop, List.filter_cons, hcond, dict_get, h'] at ih ⊢
          simp [ih]

theorem dict_get_none_of_not_mem (d : Dict) (k : String)
    (h : k ∉ dict_keys d) : dict_get d k = none := by
  induction d with
  | nil => rfl
  | cons kv rest ih =>
      obtain ⟨k0, v0⟩ := kv
      simp [dict_keys] at h
      simp [dict_get, h.1, ih (by simpa [dict_keys] using h.2)]

theorem dict_get_merge_of_none (a b : Dict) (k : String)
    (h : dict_get b k = none) : dict_get (dict_merge a b) k = dict_get a k := by
  induction b generalizing a with
  | nil => rfl
  | cons kv rest ih =>
      obtain ⟨k0, v0⟩ := kv
      simp [dict_get] at h
      by_cases hk : k = k0
      · simp [hk] at h
      · simp [hk] at h
        have : dict_merge a ((k0, v0) :: rest) = dict_merge (dict_set a k0 v0) rest := rfl
        rw [this, ih _ h, dict_get_set]
        simp [hk]

theorem dict_get_merge_of_some (a b : Dict) (k : String) (v : Value)
    (hnd : (dict_keys b).Nodup) (h : dict_get b k = some v) :
    dict_get (dict_merge a b) k = some v := by
  induction b generalizing a with
  | nil => simp [dict_get] at h
  | cons kv rest ih =>
      obtain ⟨k0, v0⟩ := kv
      rw [dict_keys_cons, List.nodup_cons] at hnd
      have hm : dict_merge a ((k0, v0) :: rest) = dict_merge (dict_set a k0 v0) rest := rfl
      by_cases hk : k = k0
      · subst hk
        simp [dict_get] at h
        subst h
        have hnone : dict_get rest k = none := dict_get_none_of_not_mem _ _ hnd.1
        rw [hm, dict_get_merge_of_none _ _ _ hnone, dict_get_set]
        simp
      · simp [dict_get, hk] at h
        rw [hm, ih _ hnd.2 h]

theorem dict_isEmpty_false_of_get (d : Dict) (k : String) (v : Value)
    (h : dict_get d k = some v) : d.isEmpty = false := by
  cases d with
  | nil => simp [dict_get] at h
  | cons kv rest => rfl

/-! ### Callback characterisation lemmas -/

theorem settle_tab_not_mem (cd : CarData) (k : String) (v : Value)
    (h : k ∉ cd.pending) :
    settle_tab cd k v = ⟨⟨dict_set cd.entries k v, cd.pending⟩, [], [], true⟩ := by
  simp [settle_tab, h]

theorem settle_tab_mem_not_done (cd : CarData) (k : String) (v : Value)
    (h : k ∈ cd.pending) (h2 : cd.pending.erase k ≠ ∅) :
    settle_tab cd k v = ⟨⟨dict_set cd.entries k v, cd.pending.erase k⟩, [], [], false⟩ := by
  simp [settle_tab, h, finalize_car_data, h2]

theorem settle_tab_mem_done (cd : CarData) (k : String) (v : Value) (b : Dict)
    (h : k ∈ cd.pending) (h2 : cd.pending.erase k = ∅)
    (hb : dict_get (dict_set cd.entries k v) "base_info" = some (Value.vObj b))
    (hne : (dict_pop (dict_merge b (dict_set cd.entries k v)) "base_info").isEmpty = false) :
    settle_tab cd k v =
      ⟨⟨dict_set cd.entries k v, cd.pending.erase k⟩,
       [dict_pop (dict_merge b (dict_set cd.entries k v)) "base_info"], [], false⟩ := by
  simp [settle_tab, h, finalize_car_data, h2, hb, hne]

theorem settle_tab_entries (cd : CarData) (k : String) (v : Value) :
    (settle_tab cd k v).car_data.entries = dict_set cd.entries k v := by
  by_cases h : k ∈ cd.pending
  · by_cases h2 : cd.pending.erase k = ∅
    · simp only [settle_tab, h, if_pos, finalize_car_data, h2]
      cases hg : dict_get (dict_set cd.entries k v) "base_info" with
      | none => simp [hg]
      | some w =>
          cases w with
          | vNull => simp [hg]
          | vStr s => simp [hg]
          | vObj b =>
              simp only [hg]
              by_cases hd : (dict_pop (dict_merge b (dict_set cd.entries k v)) "base_info").isEmpty <;>
                simp [hd]
    · simp [settle_tab_mem_not_done cd k v h h2]
  · simp [settle_tab_not_mem cd k v h]

theorem settle_tab_pending (cd : CarData) (k : String) (v : Value) :
    (settle_tab cd k v).car_data.pending =
      if k ∈ cd.pending then cd.pending.erase k else cd.pending := by
  by_cases h : k ∈ cd.pending
  · by_cases h2 : cd.pending.erase k = ∅
    · simp only [settle_tab, h, if_pos, finalize_car_data, h2]
      cases hg : dict_get (dict_set cd.entries k v) "base_info" with
      | none => simp [hg, h]
      | some w =>
          cases w with
          | vNull => simp [hg, h]
          | vStr s => simp [hg, h]
          | vObj b =>
              simp only [hg]
              by_cases hd : (dict_pop (dict_merge b (dict_set cd.entries k v)) "base_info").isEmpty <;>
                simp [hd, h]
    · simp [settle_tab_mem_not_done cd k v h h2, h]
  · simp [settle_tab_not_mem cd k v h, h]

theorem settle_tab_items_length (cd : CarData) (k : String) (v : Value) :
    (settle_tab cd k v).items.length ≤ 1 := by
  by_cases h : k ∈ cd.pending
  · simp only [settle_tab, h, if_pos, finalize_car_data]
    by_cases h2 : cd.pending.erase k = ∅
    · simp only [h2, if_pos]
      cases hg : dict_get (dict_set cd.entries k v) "base_info" with
      | none => simp
      | some w =>
          cases w with
          | vNull => simp
          | vStr s => simp
          | vObj b =>
              by_cases hd : (dict_pop (dict_merge b (dict_set cd.entries k v)) "base_info").isEmpty <;>
                simp [hd]
    · simp [h2]
  · simp [settle_tab_not_mem cd k v h]

theorem settle_tab_items_ne_nil (cd : CarData) (k : String) (v : Value)
    (h : (settle_tab cd k v).items ≠ []) :
    (settle_tab cd k v).car_data.pending = ∅ := by
  by_cases hm : k ∈ cd.pending
  · by_cases h2 : cd.pending.erase k = ∅
    · rw [settle_tab_pending, if_pos hm, h2]
    · simp [settle_tab_mem_not_done cd k v hm h2] at h
  · simp [settle_tab_not_mem cd k v hm] at h

theorem handle_event_car_data (cd : CarData) (e : TabEvent) :
    (handle_event cd e).car_data = (settle_tab cd e.key (written_value e.out)).car_data := by
  obtain ⟨k, out⟩ := e
  cases out <;> simp [handle_event, process_tab, handle_error, written_value]

theorem handle_event_items (cd : CarData) (e : TabEvent) :
    (handle_event cd e).items = (settle_tab cd e.key (written_value e.out)).items := by
  obtain ⟨k, out⟩ := e
  cases out <;> simp [handle_event, process_tab, handle_error, written_value]

/-! ### Event-trace lemmas -/

theorem run_events_pending_subset (cd : CarData) (l : List TabEvent) :
    (run_events cd l).1.pending ⊆ cd.pending := by
  induction l generalizing cd with
  | nil => simp [run_events]
  | cons e rest ih =>
      simp only [run_events]
      refine (ih _).trans ?_
      rw [handle_event_car_data, settle_tab_pending]
      by_cases h : e.key ∈ cd.pending
      · simp only [h, if_pos]
        exact Finset.erase_subset _ _
      · simp [h]

theorem run_events_of_empty (cd : CarData) (l : List TabEvent) (h : cd.pending = ∅) :
    (run_events cd l).1.pending = ∅ ∧ (run_events cd l).2 = [] := by
  induction l generalizing cd with
  | nil => exact ⟨h, rfl⟩
  | cons e rest ih =>
      have hk : e.key ∉ cd.pending := by simp [h]
      have hc := handle_event_car_data cd e
      have hi := handle_event_items cd e
      rw [settle_tab_not_mem _ _ _ hk] at hc hi
      have hp : (handle_event cd e).car_data.pending = ∅ := by rw [hc]; exact h
      have ihr := ih _ hp
      simp only [run_events]
      exact ⟨ihr.1, by rw [hi] at *; simp [ihr.2]⟩

theorem run_events_items_le_one (cd : CarData) (l : List TabEvent) :
    (run_events cd l).2.length ≤ 1 := by
  induction l generalizing cd with
  | nil => simp [run_events]
  | cons e rest ih =>
      simp only [run_events, List.length_append]
      by_cases h : (handle_event cd e).items = []
      · simp [h]
        exact ih _
      · have hp : (handle_event cd e).car_data.pending = ∅ := by
          rw [handle_event_car_data]
          exact settle_tab_items_ne_nil _ _ _ (by rw [← handle_event_items]; exact h)
        have hrest := (run_events_of_empty _ rest hp).2
        rw [hrest]
        have hlen : (handle_event cd e).items.length ≤ 1 := by
          rw [handle_event_items]; exact settle_tab_items_length _ _ _
        simpa using hlen

theorem run_events_items_nil_of_lt (cd : CarData) (l : List TabEvent)
    (h : l.length < cd.pending.card) : (run_events cd l).2 = [] := by
  induction l generalizing cd with
  | nil => simp [run_events]
  | cons e rest ih =>
      rw [List.length_cons] at h
      simp only [run_events]
      by_cases hk : e.key ∈ cd.pending
      · have hcard : rest.length < (cd.pending.erase e.key).card := by
          rw [Finset.card_erase_of_mem hk]
          omega
        have hcard_ne : cd.pending.erase e.key ≠ ∅ := by
          intro hemp
          rw [hemp] at hcard
          simp at hcard
        have hc := handle_event_car_data cd e
        have hi := handle_event_items cd e
        rw [settle_tab_mem_not_done _ _ _ hk hcard_ne] at hc hi
        have hrest : (run_events (handle_event cd e).car_data rest).2 = [] := by
          apply ih
          rw [hc]
          exact hcard
        rw [hrest, hi]
        simp
      · have hc := handle_event_car_data cd e
        have hi := handle_event_items cd e
        rw [settle_tab_not_mem _ _ _ hk] at hc hi
        have hrest : (run_events (handle_event cd e).car_data rest).2 = [] := by
          apply ih
          rw [hc]
          show rest.length < cd.pending.card
          omega
        rw [hrest, hi]
        simp

theorem run_events_entries_nodup (cd : CarData) (l : List TabEvent)
    (h : (dict_keys cd.entries).Nodup) :
    (dict_keys (run_events cd l).1.entries).Nodup := by
  induction l generalizing cd with
  | nil => simpa [run_events]
  | cons e rest ih =>
      simp only [run_events]
      apply ih
      rw [handle_event_car_data, settle_tab_entries]
      exact dict_keys_set_nodup _ _ _ h

theorem run_events_entries_spec (cd : CarData) (l : List TabEvent)
    (hnd : (l.map TabEvent.key).Nodup) :
    (∀ e ∈ l, dict_get (run_events cd l).1.entries e.key = some (written_value e.out)) ∧
    (∀ s, s ∉ l.map TabEvent.key →
      dict_get (run_events cd l).1.entries s = dict_get cd.entries s) := by
  induction l generalizing cd with
  | nil => exact ⟨by simp, fun s _ => rfl⟩
  | cons e rest ih =>
      rw [List.map_cons, List.nodup_cons] at hnd
      have ihr := ih ((handle_event cd e).car_data) hnd.2
      have hent : (handle_event cd e).car_data.entries
          = dict_set cd.entries e.key (written_value e.out) := by
        rw [handle_event_car_data, settle_tab_entries]
      constructor
      · intro e' he'
        rcases List.mem_cons.1 he' with rfl | hmem
        · simp only [run_events]
          rw [ihr.2 e'.key hnd.1, hent, dict_get_set]
          simp
        · simp only [run_events]
          exact ihr.1 e' hmem
      · intro s hs
        simp only [List.map_cons, List.mem_cons, not_or] at hs
        simp only [run_events]
        rw [ihr.2 s hs.2, hent, dict_get_set, if_neg hs.1]

theorem run_events_append (cd : CarData) (l₁ l₂ : List TabEvent) :
    run_events cd (l₁ ++ l₂) =
      ((run_events (run_events cd l₁).1 l₂).1,
       (run_events cd l₁).2 ++ (run_events (run_events cd l₁).1 l₂).2) := by
  induction l₁ generalizing cd with
  | nil => simp [run_events]
  | cons e rest ih =>
      rw [List.cons_append]
      simp only [run_events]
      rw [ih]
      simp [List.append_assoc]

/-- Completion of one entity: when the events carry pairwise-distinct keys,
one per pending tab (and none named `"base_info"`, which no real tab id
produces), the run emits exactly the single merged record built by
`finalize_car_data` from the final entries. -/
theorem run_events_complete (cd : CarData) (l : List TabEvent) (b : Dict)
    (hkeys : (l.map TabEvent.key).Nodup)
    (hsub : ∀ e ∈ l, e.key ∈ cd.pending)
    (hcov : ∀ k ∈ cd.pending, k ∈ l.map TabEvent.key)
    (hne : l ≠ [])
    (hbi : "base_info" ∉ l.map TabEvent.key)
    (hbase : dict_get cd.entries "base_info" = some (Value.vObj b))
    (hend : (dict_keys cd.entries).Nodup) :
    (run_events cd l).2 =
      [dict_pop (dict_merge b (run_events cd l).1.entries) "base_info"] := by
  induction l generalizing cd with
  | nil => exact absurd rfl hne
  | cons e rest ih =>
      have hkey_pend : e.key ∈ cd.pending := hsub e (List.mem_cons_self e rest)
      rw [List.map_cons, List.nodup_cons] at hkeys
      have hbik : e.key ≠ "base_info" := by
        intro hh
        exact hbi (by rw [List.map_cons, hh]; exact List.mem_cons_self _ _)
      have hbi' : "base_info" ∉ rest.map TabEvent.key := by
        intro hh
        exact hbi (by rw [List.map_cons]; exact List.mem_cons_of_mem _ hh)
      cases rest with
      | nil =>
          have hpend : cd.pending = {e.key} := by
            apply Finset.Subset.antisymm
            · intro k hk
              have hm := hcov k hk
              simp at hm
              simp [hm]
            · simp [hkey_pend]
          have herase : cd.pending.erase e.key = ∅ := by
            rw [hpend]
            exact Finset.erase_singleton e.key
          have hb1 : dict_get (dict_set cd.entries e.key (written_value e.out)) "base_info"
              = some (Value.vObj b) := by
            rw [dict_get_set, if_neg (fun hh => hbik hh.symm)]
            exact hbase
          have hdk : dict_get
              (dict_pop (dict_merge b (dict_set cd.entries e.key (written_value e.out))) "base_info")
              e.key = some (written_value e.out) := by
            rw [dict_get_pop, if_neg hbik]
            apply dict_get_merge_of_some _ _ _ _ (dict_keys_set_nodup _ _ _ hend)
            rw [dict_get_set]
            simp
          have hdne := dict_isEmpty_false_of_get _ _ _ hdk
          have hset := settle_tab_mem_done cd e.key (written_value e.out) b
            hkey_pend herase hb1 hdne
          have hc := handle_event_car_data cd e
          have hi := handle_event_items cd e
          rw [hset] at hc hi
          simp only [run_events]
          rw [hi, hc]
          rfl
      | cons e2 rest2 =>
          have he2 : e2.key ∈ cd.pending := hsub e2 (by simp)
          have hne2 : e2.key ≠ e.key := by
            intro hh
            apply hkeys.1
            rw [← hh]
            simp
          have herase_ne : cd.pending.erase e.key ≠ ∅ :=
            Finset.ne_empty_of_mem (Finset.mem_erase.2 ⟨hne2, he2⟩)
          have hset := settle_tab_mem_not_done cd e.key (written_value e.out)
            hkey_pend herase_ne
          have hc := handle_event_car_data cd e
          have hi := handle_event_items cd e
          rw [hset] at hc hi
          have hkr : ∀ e' ∈ e2 :: rest2, e'.key ≠ e.key := by
            intro e' he' hh
            apply hkeys.1
            rw [← hh]
            exact List.mem_map_of_mem TabEvent.key he'
          have ih' := ih (CarData.mk (dict_set cd.entries e.key (written_value e.out))
              (cd.pending.erase e.key))
            hkeys.2
            (by
              intro e' he'
              exact Finset.mem_erase.2 ⟨hkr e' he', hsub e' (List.mem_cons_of_mem _ he')⟩)
            (by
              intro k hk
              rcases Finset.mem_erase.1 hk with ⟨hk1, hk2⟩
              have := hcov k hk2
              rw [List.map_cons, List.mem_cons] at this
              exact this.resolve_left hk1)
            (by simp)
            hbi'
            (by
              show dict_get (dict_set cd.entries e.key (written_value e.out)) "base_info"
                = some (Value.vObj b)
              rw [dict_get_set, if_neg (fun hh => hbik hh.symm)]
              exact hbase)
            (dict_keys_set_nodup _ _ _ hend)
          simp only [run_events]
          rw [hi, hc]
          simpa using ih'

/-! ### Discovery-stage lemmas -/

theorem mem_values_of_lookup {β : Type} :
    ∀ (l : List (String × β)) (a : String) (r : β),
      l.lookup a = some r → r ∈ l.map Prod.snd := by
  intro l
  induction l with
  | nil =>
      intro a r h
      simp [List.lookup] at h
  | cons p rest ih =>
      intro a r h
      obtain ⟨k, b⟩ := p
      simp only [List.lookup] at h
      rcases hb : (a == k) with _ | _
      · rw [hb] at h
        simp only [List.map_cons, List.mem_cons]
        right
        exact ih a r h
      · rw [hb] at h
        simp at h
        subst h
        simp

theorem lookup_tab_inserted (id : String) (h : (lookup_tab id).2 ≠ none) :
    (lookup_tab id).1 ∈ (["specifications", "price", "variants", "colours",
      "mileage", "reviews", "gallery"] : List String) ∨ (lookup_tab id).1 = id := by
  cases hl : tab_mapping.lookup id with
  | none =>
      right
      simp [lookup_tab, hl]
  | some r =>
      have hr : lookup_tab id = r := by simp [lookup_tab, hl]
      rw [hr] at h ⊢
      have hm := mem_values_of_lookup tab_mapping id r hl
      simp [tab_mapping] at hm
      rcases hm with rfl | rfl | rfl | rfl | rfl | rfl | rfl | rfl | rfl | rfl <;>
        simp at h ⊢

theorem parse_first_page_entries (cd : CarData) (tabs : List TabLink) :
    (parse_first_page cd tabs).1.entries = cd.entries := by
  induction tabs generalizing cd with
  | nil => rfl
  | cons t ts ih =>
      by_cases hskip : t.id = "model" ∨ t.id = "compare"
      · rw [parse_first_page, if_pos hskip]
        exact ih cd
      · rcases hl : lookup_tab t.id with ⟨dk, p⟩
        cases p with
        | some pp =>
            rw [parse_first_page, if_neg hskip]
            simp only [hl]
            exact ih _
        | none =>
            rw [parse_first_page, if_neg hskip]
            simp only [hl]
            exact ih cd

theorem parse_first_page_pending_mem (cd : CarData) (tabs : List TabLink) (k : String)
    (hk : k ∈ (parse_first_page cd tabs).1.pending) :
    k ∈ cd.pending ∨
      ∃ t ∈ tabs, (lookup_tab t.id).2 ≠ none ∧ k = (lookup_tab t.id).1 := by
  induction tabs generalizing cd with
  | nil => exact Or.inl hk
  | cons t ts ih =>
      by_cases hskip : t.id = "model" ∨ t.id = "compare"
      · rw [parse_first_page, if_pos hskip] at hk
        rcases ih cd hk with h | ⟨t', ht', hcond⟩
        · exact Or.inl h
        · exact Or.inr ⟨t', List.mem_cons_of_mem _ ht', hcond⟩
      · rcases hl : lookup_tab t.id with ⟨dk, p⟩
        cases p with
        | some pp =>
            rw [parse_first_page, if_neg hskip] at hk
            simp only [hl] at hk
            rcases ih _ hk with hmem | ⟨t', ht', hcond⟩
            · rcases Finset.mem_insert.1 hmem with rfl | hmem2
              · exact Or.inr ⟨t, List.mem_cons_self _ _, by rw [hl]; exact ⟨by simp, rfl⟩⟩
              · exact Or.inl hmem2
            · exact Or.inr ⟨t', List.mem_cons_of_mem _ ht', hcond⟩
        | none =>
            rw [parse_first_page, if_neg hskip] at hk
            simp only [hl] at hk
            rcases ih cd hk with h | ⟨t', ht', hcond⟩
            · exact Or.inl h
            · exact Or.inr ⟨t', List.mem_cons_of_mem _ ht', hcond⟩

theorem parse_first_page_no_requests (cd : CarData) (tabs : List TabLink)
    (h : (parse_first_page cd tabs).2 = []) : (parse_first_page cd tabs).1 = cd := by
  induction tabs generalizing cd with
  | nil => rfl
  | cons t ts ih =>
      by_cases hskip : t.id = "model" ∨ t.id = "compare"
      · rw [parse_first_page, if_pos hskip] at h ⊢
        exact ih cd h
      · rcases hl : lookup_tab t.id with ⟨dk, p⟩
        cases p with
        | some pp =>
            rw [parse_first_page, if_neg hskip] at h
            simp only [hl] at h
            exact absurd h (by simp)
        | none =>
            rw [parse_first_page, if_neg hskip] at h ⊢
            simp only [hl] at h ⊢
            exact ih cd h

theorem initial_entries_base (car : Dict) :
    dict_get (initial_car_data car).entries "base_info" = some (Value.vObj car) := rfl

theorem initial_entries_nodup (car : Dict) :
    (dict_keys (initial_car_data car).entries).Nodup := by
  have h : dict_keys (initial_car_data car).entries =
      ["base_info", "price", "specifications", "variants", "colours", "mileage",
       "reviews", "gallery"] := rfl
  rw [h]
  decide

theorem initial_entries_no_value (car : Dict) (k : String) (h : k ≠ "base_info") :
    dict_get (initial_car_data car).entries k = none ∨
    dict_get (initial_car_data car).entries k = some Value.vNull := by
  simp only [initial_car_data, dict_get]
  split_ifs <;> simp_all

/-! ### The pending/fields invariant -/

/-- The key has no assembled value yet: the entry is absent (keys created
dynamically for fallthrough tab ids) or still the pre-initialised `None`. -/
def has_no_value (cd : CarData) (k : String) : Prop :=
  dict_get cd.entries k = none ∨ dict_get cd.entries k = some Value.vNull

theorem handle_event_no_value (cd : CarData) (e : TabEvent)
    (hInv : ∀ k ∈ cd.pending, has_no_value cd k) :
    ∀ k ∈ (handle_event cd e).car_data.pending,
      has_no_value (handle_event cd e).car_data k := by
  intro k hk
  rw [handle_event_car_data] at hk ⊢
  unfold has_no_value
  rw [settle_tab_entries, dict_get_set]
  rw [settle_tab_pending] at hk
  by_cases hm : e.key ∈ cd.pending
  · rw [if_pos hm] at hk
    rw [if_neg (Finset.mem_erase.1 hk).1]
    exact hInv k (Finset.mem_erase.1 hk).2
  · rw [if_neg hm] at hk
    have hne : k ≠ e.key := fun hh => hm (hh ▸ hk)
    rw [if_neg hne]
    exact hInv k hk

theorem run_events_no_value (cd : CarData) (l : List TabEvent)
    (hInv : ∀ k ∈ cd.pending, has_no_value cd k) :
    ∀ k ∈ (run_events cd l).1.pending, has_no_value (run_events cd l).1 k := by
  induction l generalizing cd with
  | nil => exact hInv
  | cons e rest ih =>
      intro k hk
      simp only [run_events] at hk ⊢
      exact ih _ (handle_event_no_value cd e hInv) k hk

theorem discovered_state_no_value (car : Dict) (tabs : List TabLink)
    (htab : ∀ t ∈ tabs, t.id ≠ "base_info") :
    ∀ k ∈ (discovered_state car tabs).pending, has_no_value (discovered_state car tabs) k := by
  intro k hk
  have hkk : k ≠ "base_info" := by
    rcases parse_first_page_pending_mem _ _ _ hk with hmem | ⟨t, ht, hcond, hkey⟩
    · simp [initial_car_data] at hmem
    · rcases lookup_tab_inserted t.id hcond with hseven | hid
      · intro hh
        rw [← hkey, hh] at hseven
        simp at hseven
      · rw [hkey, hid]
        exact htab t ht
  unfold has_no_value discovered_state
  rw [parse_first_page_entries]
  exact initial_entries_no_value car k hkk

theorem handle_event_raised (cd : CarData) (e : TabEvent) :
    (handle_event cd e).raised = (settle_tab cd e.key (written_value e.out)).raised := by
  obtain ⟨k, out⟩ := e
  cases out <;> simp [handle_event, process_tab, handle_error, written_value]

/-! ### Claims -/

/-- C2, counterexample: a completion event for a key that is not pending is
not a warned no-op.  On the entity with zero pending tabs, a `"price"`
completion raises (`set.remove` throws `KeyError`) and has already
overwritten the pre-initialised field value before raising. -/
theorem claim_C2_cex :
    (process_tab (discovered_state [("id", Value.vStr "A1")] []) "price"
        (Value.vStr "9")).raised = true ∧
    dict_get (process_tab (discovered_state [("id", Value.vStr "A1")] []) "price"
        (Value.vStr "9")).car_data.entries "price" = some (Value.vStr "9") ∧
    dict_get (discovered_state [("id", Value.vStr "A1")] []).entries "price"
      = some Value.vNull ∧
    (process_tab (discovered_state [("id", Value.vStr "A1")] []) "price"
        (Value.vStr "9")).logs = [] :=
  ⟨rfl, rfl, rfl, rfl⟩

/-- C2, amended: a completion event whose field key is not currently pending
first overwrites the field value, then raises `KeyError` from
`_pending_tabs.remove` (terminating that callback; Scrapy logs the exception
and the engine survives).  It never changes the pending set and never
triggers an emission. -/
theorem claim_C2 (cd : CarData) (e : TabEvent) (h : e.key ∉ cd.pending) :
    (handle_event cd e).raised = true ∧
    (handle_event cd e).items = [] ∧
    (handle_event cd e).car_data.pending = cd.pending ∧
    (handle_event cd e).car_data.entries =
      dict_set cd.entries e.key (written_value e.out) := by
  rw [handle_event_raised, handle_event_items, handle_event_car_data,
      settle_tab_not_mem _ _ _ h]
  exact ⟨rfl, rfl, rfl, rfl⟩

/-- C2, witness: the amended statement at the concrete no-pending entity. -/
theorem claim_C2_witness :
    (handle_event (discovered_state [("id", Value.vStr "A1")] [])
        ⟨"price", Outcome.success (Value.vStr "9")⟩).raised = true ∧
    (handle_event (discovered_state [("id", Value.vStr "A1")] [])
        ⟨"price", Outcome.success (Value.vStr "9")⟩).items = [] ∧
    (handle_event (discovered_state [("id", Value.vStr "A1")] [])
        ⟨"price", Outcome.success (Value.vStr "9")⟩).car_data.pending
      = (discovered_state [("id", Value.vStr "A1")] []).pending ∧
    (handle_event (discovered_state [("id", Value.vStr "A1")] [])
        ⟨"price", Outcome.success (Value.vStr "9")⟩).car_data.entries
      = dict_set (discovered_state [("id", Value.vStr "A1")] []).entries "price"
          (written_value (Outcome.success (Value.vStr "9"))) :=
  claim_C2 _ ⟨"price", Outcome.success (Value.vStr "9")⟩ (by decide)

/-- C3, counterexample: with the tab links `mileage`, `range`, `price` the
spider dispatches N = 3 sub-task requests (`range` maps to the same
`"mileage"` data key), yet a record is already emitted after only 2
completion events have been processed, contradicting the claim that no
record is emitted while fewer than N completion events have arrived. -/
theorem claim_C3_cex :
    (discovered_requests [("id", Value.vStr "A1")]
        [⟨"mileage", "http://x/mileage"⟩, ⟨"range", "http://x/range"⟩,
         ⟨"price", "http://x/price"⟩]).length = 3 ∧
    (run_events (discovered_state [("id", Value.vStr "A1")]
          [⟨"mileage", "http://x/mileage"⟩, ⟨"range", "http://x/range"⟩,
           ⟨"price", "http://x/price"⟩])
        [⟨"mileage", Outcome.success (Value.vStr "22 kmpl")⟩,
         ⟨"price", Outcome.success (Value.vStr "5L")⟩]).2.length = 1 :=
  ⟨rfl, rfl⟩

/-- C3, amended: no record is emitted while the pending set of *distinct*
field keys is larger than the number of events processed (pending still
non-empty), and no trace ever emits a second record for the entity. -/
theorem claim_C3 (car : Dict) (tabs : List TabLink) (l : List TabEvent) :
    (l.length < (discovered_state car tabs).pending.card →
      (run_events (discovered_state car tabs) l).2 = []) ∧
    (run_events (discovered_state car tabs) l).2.length ≤ 1 :=
  ⟨fun h => run_events_items_nil_of_lt _ _ h, run_events_items_le_one _ _⟩

/-- C3, witness: a two-tab entity that has processed one completion event has
emitted nothing, and its trace never emits more than one record. -/
theorem claim_C3_witness :
    (run_events (discovered_state [("id", Value.vStr "A1")]
          [⟨"specs", "u1"⟩, ⟨"price", "u2"⟩])
        [⟨"price", Outcome.success Value.vNull⟩]).2 = [] ∧
    (run_events (discovered_state [("id", Value.vStr "A1")]
          [⟨"specs", "u1"⟩, ⟨"price", "u2"⟩])
        [⟨"price", Outcome.success Value.vNull⟩]).2.length ≤ 1 :=
  ⟨(claim_C3 _ _ _).1 (by decide), (claim_C3 _ _ _).2⟩

/-- C5, counterexample: an entity whose discovery yields zero sub-task
requests emits nothing at all — `parse_first_page` yields only requests and
`finalize_car_data` is called from completion callbacks only, none of which
will ever run — contradicting the claimed immediate base-only emission. -/
theorem claim_C5_cex :
    discovered_requests [("id", Value.vStr "A1")] [] = [] ∧
    (run_events (discovered_state [("id", Value.vStr "A1")] []) []).2 = [] :=
  ⟨rfl, rfl⟩

/-- C5, amended: an entity with zero discovered sub-task requests never emits
any record: its pending set is empty and stays empty, and every subsequent
event trace yields no items. -/
theorem claim_C5 (car : Dict) (tabs : List TabLink)
    (h : discovered_requests car tabs = []) (l : List TabEvent) :
    (run_events (discovered_state car tabs) l).2 = [] := by
  have hstate : (parse_first_page (initial_car_data car) tabs).1 = initial_car_data car :=
    parse_first_page_no_requests _ _ h
  show (run_events (parse_first_page (initial_car_data car) tabs).1 l).2 = []
  rw [hstate]
  exact (run_events_of_empty _ _ rfl).2

/-- C5, witness: the entity whose only tab link is the skipped `model` tab
dispatches no requests, and a stray later event still emits nothing. -/
theorem claim_C5_witness :
    (run_events (discovered_state [("id", Value.vStr "A1")] [⟨"model", "u"⟩])
        [⟨"price", Outcome.success Value.vNull⟩]).2 = [] :=
  claim_C5 [("id", Value.vStr "A1")] [⟨"model", "u"⟩] rfl
    [⟨"price", Outcome.success Value.vNull⟩]

/-- C8, counterexample: a failed discovery fetch routes to `handle_error`,
whose meta has no `"data_key"`; the callback raises `KeyError` before its
logging line, so the spider produces zero records and zero log reports —
not the claimed single discovery-failure report. -/
theorem claim_C8_cex :
    handle_error (discovered_state [("id", Value.vStr "A1")] []) none
        "DNS lookup failed" "http://x/price"
      = ⟨discovered_state [("id", Value.vStr "A1")] [], [], [], true⟩ ∧
    (handle_error (discovered_state [("id", Value.vStr "A1")] []) none
        "DNS lookup failed" "http://x/price").logs.length ≠ 1 :=
  ⟨rfl, by decide⟩

/-- C8, amended: a discovery fetch failure produces zero emitted records and
zero spider-side reports: `handle_error` raises `KeyError` reading the
missing `"data_key"` meta before anything is logged or mutated, and the
entity never enters assembly. -/
theorem claim_C8 (cd : CarData) (errmsg url : String) :
    handle_error cd none errmsg url = ⟨cd, [], [], true⟩ := rfl

/-- C4, counterexample: the merge is `{**base_info, **final_data}` followed
by popping `"base_info"`, so on a key collision the assembled field value
overwrites the base value.  A car whose seed dict already carries a
`"specifications"` entry loses it to the parsed tab value in the emitted
record. -/
theorem claim_C4_cex :
    ((run_events (discovered_state
          [("id", Value.vStr "A1"), ("specifications", Value.vStr "base-spec")]
          [⟨"specs", "http://x/specs"⟩])
        [⟨"specifications", Outcome.success (Value.vStr "tab-spec")⟩]).2.map
      (fun d => dict_get d "specifications")) = [some (Value.vStr "tab-spec")] ∧
    Value.vStr "tab-spec" ≠ Value.vStr "base-spec" := by
  refine ⟨rfl, fun hh => ?_⟩
  injection hh with h1
  exact absurd h1 (by decide)

/-- C4, amended: when the pending set empties, the emitted record is
`{**base, **fields}` with `"base_info"` popped, so an entry value present in
the car-data dict wins over the base value at every colliding key. -/
theorem claim_C4 (cd : CarData) (b : Dict) (k : String) (v : Value)
    (hp : cd.pending = ∅)
    (hb : dict_get cd.entries "base_info" = some (Value.vObj b))
    (hn : (dict_keys cd.entries).Nodup)
    (hk : k ≠ "base_info")
    (hv : dict_get cd.entries k = some v) :
    finalize_car_data cd
        = some (Except.ok (dict_pop (dict_merge b cd.entries) "base_info")) ∧
    dict_get (dict_pop (dict_merge b cd.entries) "base_info") k = some v := by
  constructor
  · simp [finalize_car_data, hp, hb]
  · rw [dict_get_pop, if_neg hk]
    exact dict_get_merge_of_some _ _ _ _ hn hv

/-- C4, witness: the amended statement at a concrete completed entity whose
`"price"` entry holds the assembled value. -/
theorem claim_C4_witness :
    finalize_car_data
        ⟨[("base_info", Value.vObj [("x", Value.vNull)]), ("price", Value.vStr "1")], ∅⟩
        = some (Except.ok (dict_pop
            (dict_merge [("x", Value.vNull)]
              [("base_info", Value.vObj [("x", Value.vNull)]), ("price", Value.vStr "1")])
            "base_info")) ∧
    dict_get (dict_pop
        (dict_merge [("x", Value.vNull)]
          [("base_info", Value.vObj [("x", Value.vNull)]), ("price", Value.vStr "1")])
        "base_info") "price" = some (Value.vStr "1") :=
  claim_C4 ⟨[("base_info", Value.vObj [("x", Value.vNull)]), ("price", Value.vStr "1")], ∅⟩
    [("x", Value.vNull)] "price" (Value.vStr "1") rfl rfl (by decide) (by decide) rfl

/-- C6, counterexample: a tab link with the unregistered id `"hybrid"` does
not stay unfetched — `parse_first_page` dispatches a request for its URL
(callback `parse_unknown`) like any other tab — and the recorded outcome is
`{error: "Unknown tab type"}`, not `{error: "unrecognized field"}`. -/
theorem claim_C6_cex :
    discovered_requests [("id", Value.vStr "A1")] [⟨"hybrid", "http://x/hybrid"⟩]
      = [⟨"http://x/hybrid", "hybrid", ParserRef.unknown⟩] ∧
    parse_unknown_value ≠ Value.vObj [("error", Value.vStr "unrecognized field")] := by
  refine ⟨rfl, fun hh => ?_⟩
  injection hh with h1
  injection h1 with h2 h3
  injection h2 with h4 h5
  injection h5 with h6
  exact absurd h6 (by decide)

/-- C6, amended: a discovered tab whose id has no `tab_mapping` entry is
routed to `parse_unknown`: its URL is still fetched (a request is issued
with the tab id itself as data key), and on response the constant outcome
`{error: "Unknown tab type"}` is recorded for that key, which leaves the
pending set and lets the entity complete. -/
theorem claim_C6 (car : Dict) (id url : String)
    (h1 : id ≠ "model") (h2 : id ≠ "compare")
    (h3 : tab_mapping.lookup id = none) (h4 : id ≠ "base_info") :
    discovered_requests car [⟨id, url⟩] = [⟨url, id, ParserRef.unknown⟩] ∧
    id ∈ (discovered_state car [⟨id, url⟩]).pending ∧
    (parse_unknown (discovered_state car [⟨id, url⟩]) id url).items.map
        (fun d => dict_get d id) = [some parse_unknown_value] := by
  have hlt : lookup_tab id = (id, some ParserRef.unknown) := by
    simp [lookup_tab, h3]
  have hskip : ¬(id = "model" ∨ id = "compare") := by
    intro hh
    rcases hh with hh | hh
    · exact h1 hh
    · exact h2 hh
  have hpfp : parse_first_page (initial_car_data car) [⟨id, url⟩]
      = ({ entries := (initial_car_data car).entries,
           pending := insert id (initial_car_data car).pending },
         [⟨url, id, ParserRef.unknown⟩]) := by
    rw [parse_first_page, if_neg hskip]
    simp only [hlt]
    rfl
  have hstate : discovered_state car [⟨id, url⟩]
      = { entries := (initial_car_data car).entries,
          pending := insert id (initial_car_data car).pending } := by
    show (parse_first_page (initial_car_data car) [⟨id, url⟩]).1 = _
    rw [hpfp]
  refine ⟨?_, ?_, ?_⟩
  · show (parse_first_page (initial_car_data car) [⟨id, url⟩]).2 = _
    rw [hpfp]
  · rw [hstate]
    exact Finset.mem_insert_self id _
  · have hmem : id ∈ (discovered_state car [⟨id, url⟩]).pending := by
      rw [hstate]
      exact Finset.mem_insert_self id _
    have herase : (discovered_state car [⟨id, url⟩]).pending.erase id = ∅ := by
      rw [hstate]
      show (insert id (∅ : Finset String)).erase id = ∅
      rw [Finset.erase_insert (by simp)]
    have hent : (discovered_state car [⟨id, url⟩]).entries = (initial_car_data car).entries := by
      rw [hstate]
    have hbset : dict_get (dict_set (discovered_state car [⟨id, url⟩]).entries id
        parse_unknown_value) "base_info" = some (Value.vObj car) := by
      rw [dict_get_set, if_neg (fun hh => h4 hh.symm), hent]
      exact initial_entries_base car
    have hdk : dict_get (dict_pop (dict_merge car
        (dict_set (discovered_state car [⟨id, url⟩]).entries id parse_unknown_value))
        "base_info") id = some parse_unknown_value := by
      rw [dict_get_pop, if_neg h4]
      apply dict_get_merge_of_some
      · rw [hent]
        exact dict_keys_set_nodup _ _ _ (initial_entries_nodup car)
      · rw [dict_get_set]
        simp
    have hdne := dict_isEmpty_false_of_get _ _ _ hdk
    have hset := settle_tab_mem_done (discovered_state car [⟨id, url⟩]) id
      parse_unknown_value car hmem herase hbset hdne
    show (process_tab (discovered_state car [⟨id, url⟩]) id parse_unknown_value).items.map
      (fun d => dict_get d id) = [some parse_unknown_value]
    rw [process_tab, hset]
    simp [hdk]

/-- C6, witness: the amended statement at the concrete unregistered tab id
`"hybrid"`. -/
theorem claim_C6_witness :
    discovered_requests [("id", Value.vStr "A1")] [⟨"hybrid", "http://x/hybrid"⟩]
      = [⟨"http://x/hybrid", "hybrid", ParserRef.unknown⟩] ∧
    "hybrid" ∈ (discovered_state [("id", Value.vStr "A1")]
      [⟨"hybrid", "http://x/hybrid"⟩]).pending ∧
    (parse_unknown (discovered_state [("id", Value.vStr "A1")]
        [⟨"hybrid", "http://x/hybrid"⟩]) "hybrid" "http://x/hybrid").items.map
      (fun d => dict_get d "hybrid") = [some parse_unknown_value] :=
  claim_C6 [("id", Value.vStr "A1")] "hybrid" "http://x/hybrid"
    (by decide) (by decide) rfl (by decide)

/-- C7: when every sub-task of an entity fails, the entity still emits
exactly one record, and every assembled field of that record is the error
placeholder `{error, url}` carrying the failing URL and error text.  Keys
are assumed pairwise distinct (duplicate keys are a discovery contract
violation) and none equal to `"base_info"` (no real tab id is). -/
theorem claim_C7 (car : Dict) (tabs : List TabLink) (l : List TabEvent)
    (hkeys : (l.map TabEvent.key).Nodup)
    (hsub : ∀ e ∈ l, e.key ∈ (discovered_state car tabs).pending)
    (hcov : ∀ k ∈ (discovered_state car tabs).pending, k ∈ l.map TabEvent.key)
    (hne : l ≠ [])
    (hbi : "base_info" ∉ l.map TabEvent.key)
    (hfail : ∀ e ∈ l, ∃ m u, e.out = Outcome.failure m u) :
    (run_events (discovered_state car tabs) l).2.length = 1 ∧
    ∀ d ∈ (run_events (discovered_state car tabs) l).2, ∀ e ∈ l, ∃ m u,
      e.out = Outcome.failure m u ∧
      dict_get d e.key
        = some (Value.vObj [("error", Value.vStr m), ("url", Value.vStr u)]) := by
  have hbase : dict_get (discovered_state car tabs).entries "base_info"
      = some (Value.vObj car) := by
    show dict_get (parse_first_page (initial_car_data car) tabs).1.entries "base_info" = _
    rw [parse_first_page_entries]
    exact initial_entries_base car
  have hnd : (dict_keys (discovered_state car tabs).entries).Nodup := by
    show (dict_keys (parse_first_page (initial_car_data car) tabs).1.entries).Nodup
    rw [parse_first_page_entries]
    exact initial_entries_nodup car
  have hrun := run_events_complete _ l car hkeys hsub hcov hne hbi hbase hnd
  constructor
  · rw [hrun]
    rfl
  · intro d hd e he
    rw [hrun] at hd
    simp at hd
    subst hd
    obtain ⟨m, u, hout⟩ := hfail e he
    refine ⟨m, u, hout, ?_⟩
    have hek : e.key ≠ "base_info" := by
      intro hh
      exact hbi (hh ▸ List.mem_map_of_mem TabEvent.key he)
    rw [dict_get_pop, if_neg hek]
    have hspec := (run_events_entries_spec (discovered_state car tabs) l hkeys).1 e he
    have hw : written_value e.out
        = Value.vObj [("error", Value.vStr m), ("url", Value.vStr u)] := by
      rw [hout]
      rfl
    rw [← hw]
    exact dict_get_merge_of_some _ _ _ _ (run_events_entries_nodup _ _ hnd) hspec

/-- C7, witness: an entity with two discovered tabs whose two fetches both
fail still emits one record carrying both error placeholders. -/
theorem claim_C7_witness :
    (run_events (discovered_state [("id", Value.vStr "A1")]
          [⟨"price", "http://x/price"⟩, ⟨"specs", "http://x/specs"⟩])
        [⟨"price", Outcome.failure "timeout" "http://x/price"⟩,
         ⟨"specifications", Outcome.failure "DNS fail" "http://x/specs"⟩]).2.length = 1 ∧
    ∀ d ∈ (run_events (discovered_state [("id", Value.vStr "A1")]
          [⟨"price", "http://x/price"⟩, ⟨"specs", "http://x/specs"⟩])
        [⟨"price", Outcome.failure "timeout" "http://x/price"⟩,
         ⟨"specifications", Outcome.failure "DNS fail" "http://x/specs"⟩]).2,
      ∀ e ∈ ([⟨"price", Outcome.failure "timeout" "http://x/price"⟩,
              ⟨"specifications", Outcome.failure "DNS fail" "http://x/specs"⟩] :
             List TabEvent), ∃ m u,
        e.out = Outcome.failure m u ∧
        dict_get d e.key
          = some (Value.vObj [("error", Value.vStr m), ("url", Value.vStr u)]) :=
  claim_C7 [("id", Value.vStr "A1")]
    [⟨"price", "http://x/price"⟩, ⟨"specs", "http://x/specs"⟩]
    [⟨"price", Outcome.failure "timeout" "http://x/price"⟩,
     ⟨"specifications", Outcome.failure "DNS fail" "http://x/specs"⟩]
    (by decide) (by decide) (by decide) (by simp) (by decide)
    (by
      intro e he
      rcases List.mem_cons.1 he with rfl | he2
      · exact ⟨"timeout", "http://x/price", rfl⟩
      · rcases List.mem_cons.1 he2 with rfl | he3
        · exact ⟨"DNS fail", "http://x/specs", rfl⟩
        · cases he3)

/-- C1, counterexample.  Two failures of the claim as stated.  (a) An entity
with N = 0 discovered sub-tasks has processed all of its 0 completion events
yet emits no record at all.  (b) The tab links `mileage`, `range`, `price`
yield N = 3 sub-tasks but only two distinct data keys (`range` also maps to
`"mileage"`); two arrival orders of the *same* three events emit records
that differ at `"mileage"`, so the merged record is not permutation
invariant. -/
theorem claim_C1_cex :
    (run_events (discovered_state [("id", Value.vStr "A1")] []) []).2.length = 0 ∧
    List.Perm
      [(⟨"mileage", Outcome.success (Value.vStr "22 kmpl")⟩ : TabEvent),
       ⟨"mileage", Outcome.success (Value.vStr "500 km")⟩,
       ⟨"price", Outcome.success (Value.vStr "5L")⟩]
      [⟨"mileage", Outcome.success (Value.vStr "22 kmpl")⟩,
       ⟨"price", Outcome.success (Value.vStr "5L")⟩,
       ⟨"mileage", Outcome.success (Value.vStr "500 km")⟩] ∧
    ((run_events (discovered_state [("id", Value.vStr "A1")]
          [⟨"mileage", "http://x/mileage"⟩, ⟨"range", "http://x/range"⟩,
           ⟨"price", "http://x/price"⟩])
        [⟨"mileage", Outcome.success (Value.vStr "22 kmpl")⟩,
         ⟨"mileage", Outcome.success (Value.vStr "500 km")⟩,
         ⟨"price", Outcome.success (Value.vStr "5L")⟩]).2.map
      (fun d => dict_get d "mileage")) = [some (Value.vStr "500 km")] ∧
    ((run_events (discovered_state [("id", Value.vStr "A1")]
          [⟨"mileage", "http://x/mileage"⟩, ⟨"range", "http://x/range"⟩,
           ⟨"price", "http://x/price"⟩])
        [⟨"mileage", Outcome.success (Value.vStr "22 kmpl")⟩,
         ⟨"price", Outcome.success (Value.vStr "5L")⟩,
         ⟨"mileage", Outcome.success (Value.vStr "500 km")⟩]).2.map
      (fun d => dict_get d "mileage")) = [some (Value.vStr "22 kmpl")] :=
  ⟨rfl, List.Perm.cons _ (List.Perm.swap _ _ _), rfl, rfl⟩

/-- C1, amended: for an entity with N ≥ 1 discovered sub-tasks whose field
keys are pairwise distinct (and not `"base_info"`), processing the N
completion events in any arrival order emits exactly one record, of the same
content (Python dict equality) for every permutation. -/
theorem claim_C1 (car : Dict) (tabs : List TabLink) (l₁ l₂ : List TabEvent)
    (hperm : l₁.Perm l₂)
    (hkeys : (l₁.map TabEvent.key).Nodup)
    (hsub : ∀ e ∈ l₁, e.key ∈ (discovered_state car tabs).pending)
    (hcov : ∀ k ∈ (discovered_state car tabs).pending, k ∈ l₁.map TabEvent.key)
    (hne : l₁ ≠ [])
    (hbi : "base_info" ∉ l₁.map TabEvent.key) :
    (run_events (discovered_state car tabs) l₁).2.length = 1 ∧
    (run_events (discovered_state car tabs) l₂).2.length = 1 ∧
    ∀ d₁ ∈ (run_events (discovered_state car tabs) l₁).2,
      ∀ d₂ ∈ (run_events (discovered_state car tabs) l₂).2, dict_equiv d₁ d₂ := by
  have hbase : dict_get (discovered_state car tabs).entries "base_info"
      = some (Value.vObj car) := by
    show dict_get (parse_first_page (initial_car_data car) tabs).1.entries "base_info" = _
    rw [parse_first_page_entries]
    exact initial_entries_base car
  have hnd : (dict_keys (discovered_state car tabs).entries).Nodup := by
    show (dict_keys (parse_first_page (initial_car_data car) tabs).1.entries).Nodup
    rw [parse_first_page_entries]
    exact initial_entries_nodup car
  have hmapperm : (l₁.map TabEvent.key).Perm (l₂.map TabEvent.key) := hperm.map _
  have hkeys₂ : (l₂.map TabEvent.key).Nodup := hmapperm.nodup_iff.1 hkeys
  have hsub₂ : ∀ e ∈ l₂, e.key ∈ (discovered_state car tabs).pending :=
    fun e he => hsub e (hperm.mem_iff.2 he)
  have hcov₂ : ∀ k ∈ (discovered_state car tabs).pending, k ∈ l₂.map TabEvent.key :=
    fun k hk => hmapperm.mem_iff.1 (hcov k hk)
  have hne₂ : l₂ ≠ [] := by
    intro hh
    subst hh
    exact hne hperm.eq_nil
  have hbi₂ : "base_info" ∉ l₂.map TabEvent.key :=
    fun hh => hbi (hmapperm.mem_iff.2 hh)
  have hrun₁ := run_events_complete _ l₁ car hkeys hsub hcov hne hbi hbase hnd
  have hrun₂ := run_events_complete _ l₂ car hkeys₂ hsub₂ hcov₂ hne₂ hbi₂ hbase hnd
  refine ⟨by rw [hrun₁]; rfl, by rw [hrun₂]; rfl, ?_⟩
  intro d₁ hd₁ d₂ hd₂
  rw [hrun₁] at hd₁
  rw [hrun₂] at hd₂
  simp at hd₁ hd₂
  subst hd₁
  subst hd₂
  intro s
  rw [dict_get_pop, dict_get_pop]
  by_cases hs : s = "base_info"
  · simp [hs]
  · rw [if_neg hs, if_neg hs]
    have hspec₁ := run_events_entries_spec (discovered_state car tabs) l₁ hkeys
    have hspec₂ := run_events_entries_spec (discovered_state car tabs) l₂ hkeys₂
    have hagree : dict_get (run_events (discovered_state car tabs) l₁).1.entries s
        = dict_get (run_events (discovered_state car tabs) l₂).1.entries s := by
      by_cases hmem : s ∈ l₁.map TabEvent.key
      · rcases List.mem_map.1 hmem with ⟨e, he, hek⟩
        subst hek
        rw [hspec₁.1 e he, hspec₂.1 e (hperm.mem_iff.1 he)]
      · rw [hspec₁.2 s hmem, hspec₂.2 s (fun hh => hmem (hmapperm.mem_iff.2 hh))]
    cases hv : dict_get (run_events (discovered_state car tabs) l₁).1.entries s with
    | some v =>
        have hv₂ : dict_get (run_events (discovered_state car tabs) l₂).1.entries s
            = some v := by rw [← hagree]; exact hv
        rw [dict_get_merge_of_some _ _ _ _ (run_events_entries_nodup _ l₁ hnd) hv,
            dict_get_merge_of_some _ _ _ _ (run_events_entries_nodup _ l₂ hnd) hv₂]
    | none =>
        have hv₂ : dict_get (run_events (discovered_state car tabs) l₂).1.entries s
            = none := by rw [← hagree]; exact hv
        rw [dict_get_merge_of_none _ _ _ hv, dict_get_merge_of_none _ _ _ hv₂]

/-- C1, witness: a two-tab entity whose two completion events (one success,
one failure) arrive in either order emits one record each way, with equal
content. -/
theorem claim_C1_witness :
    (run_events (discovered_state [("id", Value.vStr "A1")]
          [⟨"specs", "http://x/specs"⟩, ⟨"price", "http://x/price"⟩])
        [⟨"price", Outcome.success (Value.vStr "5L")⟩,
         ⟨"specifications", Outcome.failure "timeout" "http://x/specs"⟩]).2.length = 1 ∧
    (run_events (discovered_state [("id", Value.vStr "A1")]
          [⟨"specs", "http://x/specs"⟩, ⟨"price", "http://x/price"⟩])
        [⟨"specifications", Outcome.failure "timeout" "http://x/specs"⟩,
         ⟨"price", Outcome.success (Value.vStr "5L")⟩]).2.length = 1 ∧
    ∀ d₁ ∈ (run_events (discovered_state [("id", Value.vStr "A1")]
          [⟨"specs", "http://x/specs"⟩, ⟨"price", "http://x/price"⟩])
        [⟨"price", Outcome.success (Value.vStr "5L")⟩,
         ⟨"specifications", Outcome.failure "timeout" "http://x/specs"⟩]).2,
      ∀ d₂ ∈ (run_events (discovered_state [("id", Value.vStr "A1")]
          [⟨"specs", "http://x/specs"⟩, ⟨"price", "http://x/price"⟩])
        [⟨"specifications", Outcome.failure "timeout" "http://x/specs"⟩,
         ⟨"price", Outcome.success (Value.vStr "5L")⟩]).2, dict_equiv d₁ d₂ :=
  claim_C1 [("id", Value.vStr "A1")]
    [⟨"specs", "http://x/specs"⟩, ⟨"price", "http://x/price"⟩]
    [⟨"price", Outcome.success (Value.vStr "5L")⟩,
     ⟨"specifications", Outcome.failure "timeout" "http://x/specs"⟩]
    [⟨"specifications", Outcome.failure "timeout" "http://x/specs"⟩,
     ⟨"price", Outcome.success (Value.vStr "5L")⟩]
    (List.Perm.swap _ _ _) (by decide) (by decide) (by decide) (by simp) (by decide)

/-- C9: throughout assembly (after discovery and any split of the event
trace), every key still pending has no assembled value (its entry is absent
or still `None`), and the pending set only shrinks as events are consumed —
a key removed from pending is never re-added.  Tab ids are assumed not to be
the literal `"base_info"` (the one dict key pre-populated at creation). -/
theorem claim_C9 (car : Dict) (tabs : List TabLink) (l₁ l₂ : List TabEvent)
    (htab : ∀ t ∈ tabs, t.id ≠ "base_info") :
    (∀ k ∈ (run_events (discovered_state car tabs) (l₁ ++ l₂)).1.pending,
        has_no_value (run_events (discovered_state car tabs) (l₁ ++ l₂)).1 k) ∧
    (run_events (discovered_state car tabs) (l₁ ++ l₂)).1.pending ⊆
      (run_events (discovered_state car tabs) l₁).1.pending := by
  constructor
  · exact run_events_no_value _ _ (discovered_state_no_value car tabs htab)
  · rw [run_events_append]
    exact run_events_pending_subset _ l₂

/-- C9, witness: the invariant at a concrete two-tab entity after its first
completion event, with the second still to come. -/
theorem claim_C9_witness :
    (∀ k ∈ (run_events (discovered_state [("id", Value.vStr "A1")]
          [⟨"price", "u1"⟩, ⟨"specs", "u2"⟩])
        ([⟨"price", Outcome.success (Value.vStr "5L")⟩] ++
         [⟨"specifications", Outcome.success Value.vNull⟩])).1.pending,
        has_no_value (run_events (discovered_state [("id", Value.vStr "A1")]
          [⟨"price", "u1"⟩, ⟨"specs", "u2"⟩])
        ([⟨"price", Outcome.success (Value.vStr "5L")⟩] ++
         [⟨"specifications", Outcome.success Value.vNull⟩])).1 k) ∧
    (run_events (discovered_state [("id", Value.vStr "A1")]
        [⟨"price", "u1"⟩, ⟨"specs", "u2"⟩])
      ([⟨"price", Outcome.success (Value.vStr "5L")⟩] ++
       [⟨"specifications", Outcome.success Value.vNull⟩])).1.pending ⊆
    (run_events (discovered_state [("id", Value.vStr "A1")]
        [⟨"price", "u1"⟩, ⟨"specs", "u2"⟩])
      [⟨"price", Outcome.success (Value.vStr "5L")⟩]).1.pending :=
  claim_C9 [("id", Value.vStr "A1")] [⟨"price", "u1"⟩, ⟨"specs", "u2"⟩]
    [⟨"price", Outcome.success (Value.vStr "5L")⟩]
    [⟨"specifications", Outcome.success Value.vNull⟩]
    (by decide)

/-- C10: every record emitted by a complete distinct-key trace contains all
seven pre-initialised tab keys (with `None` for any key whose tab was never
discovered) and contains neither `"base_info"` nor `"_pending_tabs"` (the
latter provided the seed car dict itself carries no such key, as the cars
spider guarantees). -/
theorem claim_C10 (car : Dict) (tabs : List TabLink) (l : List TabEvent)
    (hkeys : (l.map TabEvent.key).Nodup)
    (hsub : ∀ e ∈ l, e.key ∈ (discovered_state car tabs).pending)
    (hcov : ∀ k ∈ (discovered_state car tabs).pending, k ∈ l.map TabEvent.key)
    (hne : l ≠ [])
    (hbi : "base_info" ∉ l.map TabEvent.key)
    (hpt : dict_get car "_pending_tabs" = none)
    (hpt2 : "_pending_tabs" ∉ l.map TabEvent.key) :
    ∀ d ∈ (run_events (discovered_state car tabs) l).2,
      (∀ k ∈ (["price", "specifications", "variants", "colours", "mileage",
          "reviews", "gallery"] : List String), (dict_get d k).isSome = true) ∧
      (∀ k ∈ (["price", "specifications", "variants", "colours", "mileage",
          "reviews", "gallery"] : List String),
        k ∉ (discovered_state car tabs).pending → dict_get d k = some Value.vNull) ∧
      dict_get d "base_info" = none ∧
      dict_get d "_pending_tabs" = none := by
  have hbase : dict_get (discovered_state car tabs).entries "base_info"
      = some (Value.vObj car) := by
    show dict_get (parse_first_page (initial_car_data car) tabs).1.entries "base_info" = _
    rw [parse_first_page_entries]
    exact initial_entries_base car
  have hnd : (dict_keys (discovered_state car tabs).entries).Nodup := by
    show (dict_keys (parse_first_page (initial_car_data car) tabs).1.entries).Nodup
    rw [parse_first_page_entries]
    exact initial_entries_nodup car
  have hrun := run_events_complete _ l car hkeys hsub hcov hne hbi hbase hnd
  have hfnd := run_events_entries_nodup (discovered_state car tabs) l hnd
  have hspec := run_events_entries_spec (discovered_state car tabs) l hkeys
  have hentries : (discovered_state car tabs).entries = (initial_car_data car).entries :=
    parse_first_page_entries _ _
  intro d hd
  rw [hrun] at hd
  simp at hd
  subst hd
  have hval : ∀ k, k ∈ (["price", "specifications", "variants", "colours", "mileage",
      "reviews", "gallery"] : List String) →
      ∃ v, dict_get (run_events (discovered_state car tabs) l).1.entries k = some v := by
    intro k hk
    by_cases hmem : k ∈ l.map TabEvent.key
    · rcases List.mem_map.1 hmem with ⟨e, he, hek⟩
      subst hek
      exact ⟨_, hspec.1 e he⟩
    · refine ⟨Value.vNull, ?_⟩
      rw [hspec.2 k hmem, hentries]
      fin_cases hk <;> rfl
  refine ⟨?_, ?_, ?_, ?_⟩
  · intro k hk
    have hkb : k ≠ "base_info" := by fin_cases hk <;> decide
    obtain ⟨v, hv⟩ := hval k hk
    rw [dict_get_pop, if_neg hkb, dict_get_merge_of_some _ _ _ _ hfnd hv]
    rfl
  · intro k hk hkp
    have hkb : k ≠ "base_info" := by fin_cases hk <;> decide
    have hmem : k ∉ l.map TabEvent.key := by
      intro hm
      rcases List.mem_map.1 hm with ⟨e, he, hek⟩
      exact hkp (hek ▸ hsub e he)
    have hv : dict_get (run_events (discovered_state car tabs) l).1.entries k
        = some Value.vNull := by
      rw [hspec.2 k hmem, hentries]
      fin_cases hk <;> rfl
    rw [dict_get_pop, if_neg hkb, dict_get_merge_of_some _ _ _ _ hfnd hv]
  · rw [dict_get_pop]
    simp
  · have hpb : ("_pending_tabs" : String) ≠ "base_info" := by decide
    have hv : dict_get (run_events (discovered_state car tabs) l).1.entries "_pending_tabs"
        = none := by
      rw [hspec.2 _ hpt2, hentries]
      rfl
    rw [dict_get_pop, if_neg hpb, dict_get_merge_of_none _ _ _ hv]
    exact hpt

/-- C10, witness: the emitted record of a one-tab entity (only `price`
discovered) at concrete inputs. -/
theorem claim_C10_witness :
    (run_events (discovered_state [("id", Value.vStr "A1")] [⟨"price", "u"⟩])
        [⟨"price", Outcome.success (Value.vStr "5L")⟩]).2.length = 1 ∧
    ∀ d ∈ (run_events (discovered_state [("id", Value.vStr "A1")] [⟨"price", "u"⟩])
        [⟨"price", Outcome.success (Value.vStr "5L")⟩]).2,
      (∀ k ∈ (["price", "specifications", "variants", "colours", "mileage",
          "reviews", "gallery"] : List String), (dict_get d k).isSome = true) ∧
      (∀ k ∈ (["price", "specifications", "variants", "colours", "mileage",
          "reviews", "gallery"] : List String),
        k ∉ (discovered_state [("id", Value.vStr "A1")] [⟨"price", "u"⟩]).pending →
          dict_get d k = some Value.vNull) ∧
      dict_get d "base_info" = none ∧
      dict_get d "_pending_tabs" = none :=
  ⟨rfl,
   claim_C10 [("id", Value.vStr "A1")] [⟨"price", "u"⟩]
    [⟨"price", Outcome.success (Value.vStr "5L")⟩]
    (by decide) (by decide) (by decide) (by simp) (by decide) rfl (by decide)⟩
